import Mathlib

/-!
Shallow embedding of the in-memory FUSE filesystem engine
(src/main.rs, src/mem_fs.rs, src/tree.rs, src/tree_fs.rs) and proofs
about its documented properties.

Machine integers are modelled as `Nat`, with explicit `% 2^w` where the
source truncates (`as u16`).  `SystemTime::now()` is modelled by an
explicit `now : Nat` parameter threaded into every operation that reads
the clock; times are abstract `Nat` instants.  The injectable group
provider `get_groups(pid)` is modelled by an explicit `groups : List Nat`
parameter.  A Rust panic / slice-out-of-range abort is modelled by the
`Out.aborts` constructor.  The `bytebuffer::ByteBuffer` dependency is
modelled by a `List Nat` of bytes plus the cursor-clamping read/write
primitives of that crate (`set_rpos`/`set_wpos` clamp to the buffer
length; `read` copies `min(len - rpos, buf.len())` bytes; `write`
overwrites from `wpos`, growing the buffer as needed; `clear` empties
the buffer).
-/

/-- POSIX constants used by the engine (octal values from libc). -/
def F_OK : Nat := 0

def X_OK : Nat := 1

def W_OK : Nat := 2

def R_OK : Nat := 4

def S_ISUID : Nat := 0o4000

def S_ISGID : Nat := 0o2000

def S_ISVTX : Nat := 0o1000

def S_IXUSR : Nat := 0o100

def S_IXGRP : Nat := 0o10

def S_IXOTH : Nat := 0o1

def ENOENT : Nat := 2

def EPERM : Nat := 1

def EACCES : Nat := 13

def EEXIST : Nat := 17

def BLOCK_SIZE : Nat := 512

/-- `fuser::FileType`, restricted to the kinds the engine creates. -/
inductive FsFileType where
  | regularFile
  | directory
  | symlink
deriving DecidableEq, Repr

/-- `fuser::FileAttr` with times as abstract `Nat` instants. -/
structure FsAttr where
  ino : Nat
  size : Nat
  blocks : Nat
  atime : Nat
  mtime : Nat
  ctime : Nat
  crtime : Nat
  kind : FsFileType
  perm : Nat
  nlink : Nat
  uid : Nat
  gid : Nat
  rdev : Nat
  flags : Nat
  blksize : Nat
deriving DecidableEq, Repr

/-- `check_access` from src/mem_fs.rs lines 1002-1035.  The `i32`
subtractions are `Nat` subtractions here; this is exact because each
subtrahend `a &&& b` never exceeds the minuend `a`. -/
def check_access (file_uid file_gid file_mode uid gid access_mask : Nat) : Bool :=
  if access_mask = F_OK then
    true
  else if uid = 0 then
    let am0 := access_mask &&& X_OK
    let am1 := am0 - (am0 &&& (file_mode >>> 6))
    let am2 := am1 - (am1 &&& (file_mode >>> 3))
    let am3 := am2 - (am2 &&& file_mode)
    am3 = 0
  else if uid = file_uid then
    access_mask - (access_mask &&& (file_mode >>> 6)) = 0
  else if gid = file_gid then
    access_mask - (access_mask &&& (file_mode >>> 3)) = 0
  else
    access_mask - (access_mask &&& file_mode) = 0

/-- `creation_gid` from src/mem_fs.rs lines 994-1000. -/
def creation_gid (parent_perm parent_gid gid : Nat) : Nat :=
  if parent_perm &&& S_ISGID ≠ 0 then parent_gid else gid

/-- `clear_suid_sgid` from src/mem_fs.rs lines 1071-1077: always clear
SUID; clear SGID only when group-execute is set.  `!S_ISUID as u16` is
the 16-bit complement `65535 - 0o4000`, likewise for SGID. -/
def clear_suid_sgid (perm : Nat) : Nat :=
  let p1 := perm &&& (65535 - S_ISUID)
  if p1 &&& S_IXGRP ≠ 0 then p1 &&& (65535 - S_ISGID) else p1

/-- `MemFs::creation_mode` from src/mem_fs.rs lines 60-66, with the
`suid_support` field explicit.  `as u16` truncates to 16 bits. -/
def creation_mode (suid_support : Bool) (mode : Nat) : Nat :=
  if !suid_support then
    (mode &&& (4294967295 - (S_ISUID ||| S_ISGID))) % 65536
  else
    mode % 65536

/-- One filesystem item together with its tree links.  Mirrors
`tree_fs::Item` (ino, name, is_dir, extra attribute, data buffer) and
`tree::TreeNode` (children in insertion order, weak parent link).  The
`extra: Option<FileAttr>` of the source is always `Some` for items built
by the engine, so the attribute is stored directly.  Children are
recorded as inos, insertion order preserved. -/
structure FNode where
  ino : Nat
  name : String
  isDir : Bool
  attr : FsAttr
  data : List Nat
  children : List Nat
  parentIno : Option Nat
deriving DecidableEq, Repr

/-- The engine state: the `ino → node` index of `tree_fs::TreeFs`
(which together with the children lists also encodes the tree) plus the
`current_inode` counter of `MemFs`.  `suid_support` is a constructor
argument, carried here as a field. -/
structure Fs where
  nodes : List FNode
  currentInode : Nat
  suidSupport : Bool
deriving DecidableEq, Repr

/-- `TreeFs::get_item_mut`: O(1) HashMap lookup, modelled as a list
scan over the index. -/
def getItem (fs : Fs) (ino : Nat) : Option FNode :=
  fs.nodes.find? (fun n => n.ino = ino)

/-- `Item::find_child_mut`: `None` on a non-directory, else the first
child (insertion order) whose name matches. -/
def findChild (fs : Fs) (p : FNode) (name : String) : Option FNode :=
  if !p.isDir then none
  else (p.children.filterMap (fun i => getItem fs i)).find? (fun c => c.name = name)

/-- Replace the node with inode `ino` by `f` of it, in place. -/
def updateNode (fs : Fs) (ino : Nat) (f : FNode → FNode) : Fs :=
  { fs with nodes := fs.nodes.map (fun n => if n.ino = ino then f n else n) }

/-- `TreeFs::push`: append the child to the parent's child list, set the
child's parent link, and index the child's ino. -/
def pushChild (fs : Fs) (parentIno : Nat) (child : FNode) : Fs :=
  let fs := updateNode fs parentIno (fun p => { p with children := p.children ++ [child.ino] })
  { fs with nodes := fs.nodes ++ [{ child with parentIno := some parentIno }] }

/-- `TreeFs::remove_child`: detach the child from the parent's child
list and drop it from the ino index. -/
def removeChild (fs : Fs) (parentIno childIno : Nat) : Fs :=
  let fs := updateNode fs parentIno (fun p => { p with children := p.children.filter (fun i => i ≠ childIno) })
  { fs with nodes := fs.nodes.filter (fun n => n.ino ≠ childIno) }

/-- `bytebuffer::ByteBuffer::write_bytes` at write position `wpos`:
overwrite from `wpos`, growing the buffer when the write runs past the
current end. -/
def bufWrite (data : List Nat) (wpos : Nat) (bytes : List Nat) : List Nat :=
  data.take wpos ++ bytes ++ data.drop (wpos + bytes.length)

/-- `bytebuffer` read into a zeroed buffer of length `want`, after
`set_rpos(pos)` (which clamps to the buffer length): `Read::read` copies
`min(len - rpos, want)` bytes, leaving the tail of the output zeroed. -/
def bufReadZeroPadded (data : List Nat) (pos want : Nat) : List Nat :=
  let rpos := min pos data.length
  let copied := min (data.length - rpos) want
  (data.drop rpos).take copied ++ List.replicate (want - copied) 0

/-- Result of one dispatched operation: a typed reply, an errno reply,
or a Rust panic/abort (`unwrap` on `None`, out-of-range slice). -/
inductive Out (α : Type) where
  | ok : α → Out α
  | error : Nat → Out α
  | aborts : Out α
deriving DecidableEq, Repr

/-- `dir_attr` from src/mem_fs.rs lines 948-969: directory defaults
perm 0o777, uid 0, gid 0, nlink 2, size 512, blocks recomputed as
`(size + 512 - 1) / 512`; crtime is `UNIX_EPOCH` (instant 0). -/
def dir_attr (ino now : Nat) : FsAttr :=
  { ino := ino, size := BLOCK_SIZE, blocks := (BLOCK_SIZE + BLOCK_SIZE - 1) / BLOCK_SIZE
    atime := now, mtime := now, ctime := now, crtime := 0
    kind := FsFileType.directory, perm := 0o777, nlink := 2, uid := 0, gid := 0
    rdev := 0, flags := 0, blksize := BLOCK_SIZE }

/-- `file_attr` from src/mem_fs.rs lines 971-992: regular-file defaults
perm 0o644, uid 0, gid 0, nlink 1, blocks `(size + 512 - 1) / 512`. -/
def file_attr (ino size now : Nat) : FsAttr :=
  { ino := ino, size := size, blocks := (size + BLOCK_SIZE - 1) / BLOCK_SIZE
    atime := now, mtime := now, ctime := now, crtime := 0
    kind := FsFileType.regularFile, perm := 0o644, nlink := 1, uid := 0, gid := 0
    rdev := 0, flags := 0, blksize := 512 }

/-- `fuser::TimeOrNow`. -/
inductive TimeOrNow where
  | SpecificTime (t : Nat)
  | Now
deriving DecidableEq, Repr

/-- `mkdir` from src/mem_fs.rs lines 423-482.  The source first runs an
EEXIST pre-check through `map_or` on the parent lookup, then calls
`.unwrap()` on the parent lookup (a panic when the parent ino is not
indexed), checks write access, allocates the ino, and pushes
`Item::new(ino, name, true, Some(attr))` — `FileAttr` is `Copy`, so the
stored item keeps the `dir_attr` defaults while all later mutations land
on the local copy that is only used for the reply. -/
def mkdir (fs : Fs) (requid reqgid now parent : Nat) (name : String) (mode : Nat) :
    Fs × Out FsAttr :=
  if (Option.bind (getItem fs parent) (fun p => findChild fs p name)).isSome then
    (fs, Out.error EEXIST)
  else
    match getItem fs parent with
    | none => (fs, Out.aborts)
    | some p =>
      if !check_access p.attr.uid p.attr.gid p.attr.perm requid reqgid W_OK then
        (fs, Out.error EACCES)
      else
        let ino := fs.currentInode + 1
        let fs1 : Fs := { fs with currentInode := ino }
        let attr0 := dir_attr ino now
        let fs2 := pushChild fs1 parent
          { ino := ino, name := name, isDir := true, attr := attr0
            data := [], children := [], parentIno := none }
        let fs3 := updateNode fs2 parent
          (fun q => { q with attr := { q.attr with mtime := now, ctime := now } })
        let attr1 := { attr0 with size := BLOCK_SIZE, atime := now, mtime := now, ctime := now }
        let mode1 := if requid ≠ 0 then mode &&& (4294967295 - (S_ISUID ||| S_ISGID)) else mode
        let mode2 := if p.attr.perm &&& S_ISGID ≠ 0 then mode1 ||| S_ISGID else mode1
        let attr2 := { attr1 with perm := creation_mode fs.suidSupport mode2
                                  uid := requid
                                  gid := creation_gid p.attr.perm p.attr.gid reqgid }
        (fs3, Out.ok attr2)

/-- `unlink` from src/mem_fs.rs lines 535-574: parent must be an
indexed directory, the named child must exist; on a sticky-bit parent a
non-root caller must own the parent or the child, else `EACCES` before
any mutation.  On success the parent's times are touched and
`TreeFs::remove_child` detaches and de-indexes the child (panicking if
the child's recorded parent is not this parent). -/
def unlink (fs : Fs) (requid now parent : Nat) (name : String) : Fs × Out Unit :=
  match getItem fs parent with
  | none => (fs, Out.error ENOENT)
  | some p =>
    if !p.isDir then (fs, Out.error ENOENT)
    else
      match findChild fs p name with
      | none => (fs, Out.error ENOENT)
      | some c =>
        if p.attr.perm &&& S_ISVTX ≠ 0 ∧ requid ≠ 0 ∧ requid ≠ p.attr.uid ∧ requid ≠ c.attr.uid then
          (fs, Out.error EACCES)
        else
          let fs1 := updateNode fs parent
            (fun q => { q with attr := { q.attr with ctime := now, mtime := now } })
          if c.parentIno ≠ some parent then (fs1, Out.aborts)
          else (removeChild fs1 parent c.ino, Out.ok ())

/-- `read` from src/mem_fs.rs lines 632-663: reject directories with
`ENOENT`; allocate a zeroed buffer of `read_size = min(size, len)`
bytes, `set_rpos(offset)` (clamped), `Read::read` into it, and reply
with the whole buffer. -/
def readOp (fs : Fs) (ino offset size : Nat) : Out (List Nat) :=
  match getItem fs ino with
  | none => Out.error ENOENT
  | some item =>
    if item.isDir then Out.error ENOENT
    else
      let read_size := min size item.data.length
      Out.ok (bufReadZeroPadded item.data offset read_size)

/-- `write` from src/mem_fs.rs lines 665-697: reject directories with
`ENOENT`; `set_wpos(offset)` (clamped to the buffer length), write the
bytes, set `attr.size` to the resulting buffer length (`attr.blocks` is
not touched), and reply with `data.len()`. -/
def writeOp (fs : Fs) (ino offset : Nat) (data : List Nat) : Fs × Out Nat :=
  match getItem fs ino with
  | none => (fs, Out.error ENOENT)
  | some item =>
    if item.isDir then (fs, Out.error ENOENT)
    else
      let wpos := min offset item.data.length
      let newData := bufWrite item.data wpos data
      let fs1 := updateNode fs ino
        (fun it => { it with data := newData, attr := { it.attr with size := newData.length } })
      (fs1, Out.ok data.length)

/-- `copy_file_range` from src/mem_fs.rs lines 901-945: resolve both
inodes (`ENOENT` otherwise), read `min(size, src_attr.size -' src_off)`
bytes from the source buffer (zero-padded past the end), write them at
the destination's clamped `dest_offset`, touch only the destination's
ctime and mtime, and reply with the transferred length. -/
def copy_file_range (fs : Fs) (src_ino src_off dst_ino dst_off size now : Nat) :
    Fs × Out Nat :=
  match getItem fs src_ino with
  | none => (fs, Out.error ENOENT)
  | some src =>
    match getItem fs dst_ino with
    | none => (fs, Out.error ENOENT)
    | some dst =>
      let read_size := min size (src.attr.size - src_off)
      let data := bufReadZeroPadded src.data src_off read_size
      let wpos := min dst_off dst.data.length
      let newData := bufWrite dst.data wpos data
      let fs1 := updateNode fs dst_ino
        (fun it => { it with data := newData
                             attr := { it.attr with ctime := now, mtime := now } })
      (fs1, Out.ok data.length)

/-- The trailing `mtime` branch of `setattr` (src/mem_fs.rs lines
359-385) followed by the final `reply.attr` (line 387).  `attr` is the
item's current attribute record at this point of the call. -/
def setattrMtime (fs : Fs) (requid reqgid now inode : Nat) (attr : FsAttr)
    (mtimeO : Option TimeOrNow) : Fs × Out FsAttr :=
  match mtimeO with
  | some mt =>
    if attr.uid ≠ requid ∧ requid ≠ 0 ∧ mt ≠ TimeOrNow.Now then (fs, Out.error EPERM)
    else if attr.uid ≠ requid ∧
        !check_access attr.uid attr.gid attr.perm requid reqgid W_OK then
      (fs, Out.error EACCES)
    else
      let a1 := { attr with
                  mtime := (match mt with | TimeOrNow.SpecificTime t => t | TimeOrNow.Now => now)
                  ctime := now }
      (updateNode fs inode (fun it => { it with attr := a1 }), Out.ok a1)
  | none => (fs, Out.ok attr)

/-- The `atime` branch of `setattr` (src/mem_fs.rs lines 332-358),
continuing with the `mtime` branch. -/
def setattrTimes (fs : Fs) (requid reqgid now inode : Nat) (attr : FsAttr)
    (atimeO mtimeO : Option TimeOrNow) : Fs × Out FsAttr :=
  match atimeO with
  | some at1 =>
    if attr.uid ≠ requid ∧ requid ≠ 0 ∧ at1 ≠ TimeOrNow.Now then (fs, Out.error EPERM)
    else if attr.uid ≠ requid ∧
        !check_access attr.uid attr.gid attr.perm requid reqgid W_OK then
      (fs, Out.error EACCES)
    else
      let a1 := { attr with
                  atime := (match at1 with | TimeOrNow.SpecificTime t => t | TimeOrNow.Now => now)
                  ctime := now }
      let fs1 := updateNode fs inode (fun it => { it with attr := a1 })
      setattrMtime fs1 requid reqgid now inode a1 mtimeO
  | none => setattrMtime fs requid reqgid now inode attr mtimeO

/-- `setattr` from src/mem_fs.rs lines 212-389.  The chmod branch and
the chown branch each mutate, reply and `return`, ignoring any later
fields.  The truncate branch for `size == 0` only calls
`data.clear()` — the `size`/`ctime`/`mtime`/SUID updates sit in the
`else` arm; for `size > 0` the slice `old_data_vec[..size]` panics when
`size` exceeds the buffer length, else the buffer is truncated and the
metadata updated.  Control then falls through to atime/mtime. -/
def setattr (fs : Fs) (requid reqgid : Nat) (groups : List Nat) (now inode : Nat)
    (modeO uidO gidO sizeO : Option Nat) (atimeO mtimeO : Option TimeOrNow) :
    Fs × Out FsAttr :=
  match getItem fs inode with
  | none => (fs, Out.error ENOENT)
  | some item =>
    match modeO with
    | some m =>
      if requid ≠ 0 ∧ requid ≠ item.attr.uid then (fs, Out.error EPERM)
      else
        let newPerm :=
          if requid ≠ 0 ∧ reqgid ≠ item.attr.gid ∧ ¬ item.attr.gid ∈ groups then
            (m &&& (4294967295 - S_ISGID)) % 65536
          else m % 65536
        let a1 := { item.attr with perm := newPerm, ctime := now }
        (updateNode fs inode (fun it => { it with attr := a1 }), Out.ok a1)
    | none =>
      if uidO.isSome || gidO.isSome then
        if (match gidO with
            | some g => requid != 0 && !(groups.contains g)
            | none => false) then
          (fs, Out.error EPERM)
        else if (match uidO with
            | some u => requid != 0 && !(u == item.attr.uid && requid == item.attr.uid)
            | none => false) then
          (fs, Out.error EPERM)
        else if gidO.isSome ∧ requid ≠ 0 ∧ requid ≠ item.attr.uid then
          (fs, Out.error EPERM)
        else
          let a0 := item.attr
          let a1 := if a0.perm &&& (S_IXUSR ||| S_IXGRP ||| S_IXOTH) ≠ 0 then
              { a0 with perm := clear_suid_sgid a0.perm }
            else a0
          let a2 := match uidO with
            | some u => { a1 with uid := u, perm := a1.perm &&& (65535 - S_ISUID) }
            | none => a1
          let a3 := match gidO with
            | some g => { a2 with gid := g
                                  perm := if requid ≠ 0 then a2.perm &&& (65535 - S_ISGID)
                                          else a2.perm }
            | none => a2
          let a4 := { a3 with ctime := now }
          (updateNode fs inode (fun it => { it with attr := a4 }), Out.ok a4)
      else
        match sizeO with
        | some s =>
          if s = 0 then
            let fs1 := updateNode fs inode (fun it => { it with data := [] })
            setattrTimes fs1 requid reqgid now inode item.attr atimeO mtimeO
          else if item.data.length < s then (fs, Out.aborts)
          else
            let a1 := { item.attr with size := s, ctime := now, mtime := now }
            let a2 := { a1 with perm := clear_suid_sgid a1.perm }
            let fs1 := updateNode fs inode
              (fun it => { it with data := it.data.take s, attr := a2 })
            setattrTimes fs1 requid reqgid now inode a2 atimeO mtimeO
        | none => setattrTimes fs requid reqgid now inode item.attr atimeO mtimeO

/-- The root item built by `init` (src/mem_fs.rs lines 140-143). -/
def rootNode : FNode :=
  { ino := 1, name := "root", isDir := true, attr := dir_attr 1 0
    data := [], children := [], parentIno := none }

/-- A freshly initialised engine: root only, `current_inode = 1`. -/
def fsRootOnly : Fs := { nodes := [rootNode], currentInode := 1, suidSupport := false }

theorem one_land_eq_mod (x : Nat) : 1 &&& x = x % 2 := by
  rw [Nat.land_comm]
  exact Nat.and_one_is_mod x

/-- Claim C4: `check_access` with requester uid 0 returns true iff the
mask contains no execute bit or at least one execute bit (owner, group,
or other) is set in the permission word. -/
theorem check_access_root_iff (u g p g2 m : Nat) :
    check_access u g p 0 g2 m = true ↔
      (m &&& X_OK = 0 ∨ (p >>> 6) &&& X_OK = 1 ∨ (p >>> 3) &&& X_OK = 1 ∨ p &&& X_OK = 1) := by
  by_cases hm0 : m = 0
  · simp [check_access, F_OK, X_OK, hm0]
  · rcases Nat.mod_two_eq_zero_or_one m with hm2 | hm2 <;>
      rcases Nat.mod_two_eq_zero_or_one (p >>> 6) with hb6 | hb6 <;>
      rcases Nat.mod_two_eq_zero_or_one (p >>> 3) with hb3 | hb3 <;>
      rcases Nat.mod_two_eq_zero_or_one p with hb0 | hb0 <;>
      simp [check_access, F_OK, X_OK, hm0, Nat.and_one_is_mod, one_land_eq_mod,
        hm2, hb6, hb3, hb0, Nat.zero_and, Nat.sub_self]

theorem land_low3_congr (m x y : Nat) (hm : m < 8) (h : x &&& 7 = y &&& 7) :
    m &&& x = m &&& y := by
  apply Nat.eq_of_testBit_eq
  intro i
  rw [Nat.testBit_land, Nat.testBit_land]
  by_cases hi : i < 3
  · have hx : x.testBit i = y.testBit i := by
      have h7 : (7 : Nat).testBit i = true := by interval_cases i <;> decide
      have hc := congrArg (fun z => z.testBit i) h
      simp only [Nat.testBit_land, h7, Bool.and_true] at hc
      exact hc
    rw [hx]
  · have hmi : m.testBit i = false := by
      apply Nat.testBit_lt_two_pow
      calc m < 8 := hm
        _ = 2 ^ 3 := by norm_num
        _ ≤ 2 ^ i := Nat.pow_le_pow_right (by norm_num) (by omega)
    simp [hmi]

/-- Claim C8, counterexample: with requester uid 0 (which also equals
the file uid), `check_access` reads the group and other triads as well,
so two permission words that agree on the owner triad (bits 6-8) can
give different results — here `p = 0o001` grants root execute while
`p = 0` denies it. -/
theorem check_access_owner_triad_cex :
    (1 >>> 6) &&& 7 = (0 >>> 6) &&& 7 ∧
      check_access 0 0 1 0 0 1 ≠ check_access 0 0 0 0 0 1 := by decide

/-- Claim C8 (amended): for a non-root requester whose uid equals the
file uid and a mask confined to the rwx bits (`m < 8`),
`check_access` depends only on the owner triad (bits 6-8) of the
permission word. -/
theorem check_access_owner_triad (u g g2 m p q : Nat) (hu : u ≠ 0) (hm : m < 8)
    (h : (p >>> 6) &&& 7 = (q >>> 6) &&& 7) :
    check_access u g p u g2 m = check_access u g q u g2 m := by
  have key : m &&& (p >>> 6) = m &&& (q >>> 6) := land_low3_congr m _ _ hm h
  by_cases h0 : m = 0
  · simp [check_access, F_OK, h0]
  · simp [check_access, F_OK, h0, hu, key]

/-- Claim C8 witness: owner uid 5 with full mask 7; the two permission
words 0o700 and 0o777 share the owner triad, so access agrees. -/
theorem check_access_owner_triad_witness :
    check_access 5 0 448 5 0 7 = check_access 5 0 511 5 0 7 :=
  check_access_owner_triad 5 0 0 7 448 511 (by decide) (by decide) (by decide)

/-- A 10-byte regular file with SUID and perm 0o4755, owned by root,
child of the root directory: the setattr scenarios of §8. -/
def fileNodeA : FNode :=
  { ino := 2, name := "f", isDir := false
    attr := { file_attr 2 10 0 with perm := 0o4755 }
    data := [1, 2, 3, 4, 5, 6, 7, 8, 9, 10], children := [], parentIno := some 1 }

def fsFileA : Fs :=
  { nodes := [{ rootNode with children := [2] }, fileNodeA]
    currentInode := 2, suidSupport := false }

/-- Claim C1: `setattr` must apply every supplied field in the order
mode, uid/gid, size, atime, mtime.  The source short-circuits after
chmod: with `mode = some 0o755` and `size = some 3` supplied together,
the reply is sent right after the chmod and the size field is silently
ignored — the stored buffer keeps its 10 bytes and `attr.size` stays
10 instead of 3. -/
theorem setattr_mode_ignores_size :
    (setattr fsFileA 0 0 [] 5 2 (some 0o755) none none (some 3) none none).2 =
      Out.ok { fileNodeA.attr with perm := 0o755, ctime := 5 } ∧
    (getItem (setattr fsFileA 0 0 [] 5 2 (some 0o755) none none (some 3) none none).1 2).map
        (fun it => (it.data.length, it.attr.size, it.attr.perm)) = some (10, 10, 0o755) := by
  decide

/-- Claim C6: `setattr` with `size = 0` must clear the buffer, set
`attr.size` to 0, update mtime and ctime, and clear SUID.  The source
clears the buffer but leaves every metadata update in the `size > 0`
arm: attr.size stays 10, perm stays 0o4755, the times stay 0. -/
theorem setattr_truncate_zero_skips_metadata :
    (setattr fsFileA 0 0 [] 5 2 none none none (some 0) none none).2 =
      Out.ok fileNodeA.attr ∧
    (getItem (setattr fsFileA 0 0 [] 5 2 none none none (some 0) none none).1 2).map
        (fun it => (it.data, it.attr.size, it.attr.perm, it.attr.mtime, it.attr.ctime)) =
      some ([], 10, 0o4755, 0, 0) := by
  decide

/-- A 4-byte regular file, child of root: the read-past-end scenario. -/
def fileNode4 : FNode :=
  { ino := 2, name := "f", isDir := false, attr := file_attr 2 4 0
    data := [1, 2, 3, 4], children := [], parentIno := some 1 }

def fsFile4 : Fs :=
  { nodes := [{ rootNode with children := [2] }, fileNode4]
    currentInode := 2, suidSupport := false }

/-- Claim C3: `read` must return exactly `min(size, len - offset)`
bytes — for a 4-byte file read at offset 100 that is zero bytes.  The
source computes `read_size = min(size, len)` ignoring the offset and
replies with the whole zero-initialised buffer: 4 zero bytes instead of
empty data. -/
theorem read_past_end_not_empty :
    readOp fsFile4 2 100 10 = Out.ok [0, 0, 0, 0] ∧
      ([0, 0, 0, 0] : List Nat) ≠ [] ∧ min 10 (4 - 100) = 0 := by
  decide

/-- An empty regular file, child of root: the write/blocks scenario. -/
def fsFile0 : Fs :=
  { nodes := [{ rootNode with children := [2] },
      { ino := 2, name := "f", isDir := false, attr := file_attr 2 0 0
        data := [], children := [], parentIno := some 1 }]
    currentInode := 2, suidSupport := false }

set_option maxRecDepth 100000 in
/-- Claim C5: after every operation `attr.blocks` must equal
`⌈attr.size / 512⌉`.  `write` sets `attr.size` to the new buffer length
but never touches `attr.blocks`: writing 513 bytes into an empty file
leaves `blocks = 0` while `⌈513 / 512⌉ = 2`. -/
theorem write_breaks_blocks_invariant :
    (getItem (writeOp fsFile0 2 0 (List.replicate 513 7)).1 2).map
        (fun it => (it.attr.size, it.attr.blocks)) = some (513, 0) ∧
      (513 + BLOCK_SIZE - 1) / BLOCK_SIZE = 2 := by
  decide

/-- Claim C7: `mkdir` with a parent ino absent from the index must
reply `ENOENT`.  The source calls `.unwrap()` on the failed lookup and
panics (aborts) instead. -/
theorem mkdir_missing_parent_aborts :
    (mkdir fsRootOnly 0 0 5 99 "d" 0o755).2 = (Out.aborts : Out FsAttr) ∧
      (Out.aborts : Out FsAttr) ≠ Out.error ENOENT := by
  decide

/-- Claim C2: a directory created by `mkdir(1, "d", 0o755)` for uid 100
/ gid 100 must be stored with perm `creation_mode 0o755 = 0o755`,
uid 100 and gid 100.  The source pushes the item before computing those
fields (and `FileAttr` is `Copy`), so the stored item keeps the
`dir_attr` defaults perm 0o777, uid 0, gid 0; only the reply carries
the computed values. -/
theorem mkdir_stores_default_attr :
    (getItem (mkdir fsRootOnly 100 100 7 1 "d" 0o755).1 2).map
        (fun it => (it.attr.perm, it.attr.uid, it.attr.gid)) = some (0o777, 0, 0) ∧
      ((0o777 : Nat), (0 : Nat), (0 : Nat)) ≠
        (creation_mode false 0o755, 100, 100) := by
  decide

theorem getItem_removeChild_self (fs : Fs) (parentIno childIno : Nat) :
    getItem (removeChild fs parentIno childIno) childIno = none := by
  unfold getItem removeChild updateNode
  rw [List.find?_eq_none]
  intro n hn
  have hfil := (List.mem_filter.mp hn).2
  simp only [decide_eq_true_eq] at hfil ⊢
  exact hfil

theorem removeChild_notMem_children (fs : Fs) (parentIno childIno : Nat) (p' : FNode)
    (h : getItem (removeChild fs parentIno childIno) parentIno = some p') :
    childIno ∉ p'.children := by
  unfold getItem removeChild updateNode at h
  have hmem := List.mem_of_find?_eq_some h
  have hino : p'.ino = parentIno := by
    have := List.find?_some h
    simpa using this
  rcases List.mem_filter.mp hmem with ⟨hmem2, _⟩
  rcases List.mem_map.mp hmem2 with ⟨n, _, heq⟩
  by_cases hcase : n.ino = parentIno
  · rw [if_pos hcase] at heq
    intro hmemc
    rw [← heq] at hmemc
    have := (List.mem_filter.mp hmemc).2
    simp at this
  · rw [if_neg hcase] at heq
    rw [← heq] at hino
    exact absurd hino hcase

/-- Claim C9: on a sticky-bit directory, `unlink` by a requester who is
neither root nor the owner of the parent nor the owner of the child
replies `EACCES` with the state unchanged; a requester who is root or
owns the parent or the child succeeds, and the child is detached from
the parent and dropped from the inode index. -/
theorem unlink_sticky (fs : Fs) (requid now parent : Nat) (name : String)
    (p c : FNode)
    (hp : getItem fs parent = some p) (hdir : p.isDir = true)
    (hsticky : p.attr.perm &&& S_ISVTX ≠ 0)
    (hc : findChild fs p name = some c)
    (hlink : c.parentIno = some parent) :
    (requid ≠ 0 ∧ requid ≠ p.attr.uid ∧ requid ≠ c.attr.uid →
      unlink fs requid now parent name = (fs, Out.error EACCES)) ∧
    ((requid = 0 ∨ requid = p.attr.uid ∨ requid = c.attr.uid) →
      ∃ fs', unlink fs requid now parent name = (fs', Out.ok ()) ∧
        getItem fs' c.ino = none ∧
        ∀ p', getItem fs' parent = some p' → c.ino ∉ p'.children) := by
  constructor
  · rintro ⟨h1, h2, h3⟩
    unfold unlink
    rw [hp]
    simp only [hdir, Bool.not_true, Bool.false_eq_true, if_false, hc]
    rw [if_pos ⟨hsticky, h1, h2, h3⟩]
  · intro hok
    unfold unlink
    rw [hp]
    simp only [hdir, Bool.not_true, Bool.false_eq_true, if_false, hc]
    rw [if_neg (fun hbad => by
      rcases hok with h | h | h
      · exact hbad.2.1 h
      · exact hbad.2.2.1 h
      · exact hbad.2.2.2 h)]
    rw [if_neg (by simp [hlink])]
    refine ⟨_, rfl, getItem_removeChild_self _ _ _, ?_⟩
    intro p' hp'
    exact removeChild_notMem_children _ _ _ _ hp'

/-- Sticky-bit scenario of §8: parent perm 0o1777 owned by uid 100,
child file owned by uid 200. -/
def pSticky : FNode :=
  { ino := 1, name := "root", isDir := true
    attr := { dir_attr 1 0 with perm := 0o1777, uid := 100 }
    data := [], children := [2], parentIno := none }

def cSticky : FNode :=
  { ino := 2, name := "f", isDir := false
    attr := { file_attr 2 4 0 with uid := 200 }
    data := [1, 2, 3, 4], children := [], parentIno := some 1 }

def fsSticky : Fs := { nodes := [pSticky, cSticky], currentInode := 2, suidSupport := false }

/-- Claim C9 witness: requester uid 200 owns the child, so the unlink
succeeds and detaches ino 2; the denial conjunct is instantiated at the
same uid. -/
theorem unlink_sticky_witness :
    (200 ≠ 0 ∧ 200 ≠ pSticky.attr.uid ∧ 200 ≠ cSticky.attr.uid →
      unlink fsSticky 200 9 1 "f" = (fsSticky, Out.error EACCES)) ∧
    ((200 = 0 ∨ 200 = pSticky.attr.uid ∨ 200 = cSticky.attr.uid) →
      ∃ fs', unlink fsSticky 200 9 1 "f" = (fs', Out.ok ()) ∧
        getItem fs' cSticky.ino = none ∧
        ∀ p', getItem fs' 1 = some p' → cSticky.ino ∉ p'.children) :=
  unlink_sticky fsSticky 200 9 1 "f" pSticky cSticky (by decide) (by decide)
    (by decide) (by decide) (by decide)

theorem find?_map_ino (l : List FNode) (i : Nat) (g : FNode → FNode)
    (hg : ∀ n, (g n).ino = n.ino) :
    (l.map g).find? (fun n => n.ino = i) = (l.find? (fun n => n.ino = i)).map g := by
  induction l with
  | nil => rfl
  | cons a t ih =>
    by_cases h : a.ino = i
    · rw [List.map_cons, List.find?_cons_of_pos _ (by simp [hg, h]),
        List.find?_cons_of_pos _ (by simp [h])]
      rfl
    · rw [List.map_cons, List.find?_cons_of_neg _ (by simp [hg, h]),
        List.find?_cons_of_neg _ (by simp [h])]
      exact ih

/-- Claim C10: a successful `copy_file_range` touches only the
destination's mtime and ctime; every other attribute field — including
`attr.size` — is left as it was, whatever offsets and size are
requested. -/
theorem copy_file_range_frame (fs : Fs) (src_ino src_off dst_ino dst_off size now : Nat)
    (s d : FNode) (hs : getItem fs src_ino = some s) (hd : getItem fs dst_ino = some d) :
    ∃ n fs', copy_file_range fs src_ino src_off dst_ino dst_off size now = (fs', Out.ok n) ∧
      ∀ d', getItem fs' dst_ino = some d' →
        d'.attr = { d.attr with mtime := now, ctime := now } := by
  unfold copy_file_range
  rw [hs, hd]
  refine ⟨_, _, rfl, ?_⟩
  intro d' hd'
  have hdi : d.ino = dst_ino := by
    have := List.find?_some hd
    simpa using this
  rw [getItem, updateNode] at hd'
  rw [find?_map_ino _ _ _ (fun n => by by_cases hn : n.ino = dst_ino <;> simp [hn])] at hd'
  rw [show fs.nodes.find? (fun n => n.ino = dst_ino) = some d from hd] at hd'
  rw [Option.map_some'] at hd'
  rw [Option.some.injEq] at hd'
  rw [← hd', if_pos hdi]

/-- Two regular files under root: source ino 2 (4 bytes), destination
ino 3 (1 byte). -/
def fsCopy : Fs :=
  { nodes := [{ rootNode with children := [2, 3] },
      { ino := 2, name := "src", isDir := false, attr := file_attr 2 4 0
        data := [1, 2, 3, 4], children := [], parentIno := some 1 },
      { ino := 3, name := "dst", isDir := false, attr := file_attr 3 1 0
        data := [9], children := [], parentIno := some 1 }]
    currentInode := 3, suidSupport := false }

/-- Claim C10 witness: copying 4 bytes of ino 2 over ino 3 grows the
destination buffer, yet the only attribute fields that change are mtime
and ctime. -/
theorem copy_file_range_frame_witness :
    ∃ n fs', copy_file_range fsCopy 2 0 3 0 4 11 = (fs', Out.ok n) ∧
      ∀ d', getItem fs' 3 = some d' →
        d'.attr = { file_attr 3 1 0 with mtime := 11, ctime := 11 } :=
  copy_file_range_frame fsCopy 2 0 3 0 4 11
    { ino := 2, name := "src", isDir := false, attr := file_attr 2 4 0
      data := [1, 2, 3, 4], children := [], parentIno := some 1 }
    { ino := 3, name := "dst", isDir := false, attr := file_attr 3 1 0
      data := [9], children := [], parentIno := some 1 }
    (by decide) (by decide)
